import Mathlib

/-
Verification of the meilisearch-python-async client against its
natural-language specification.

The development shallowly embeds the code of
`meilisearch_python_async/client.py` (present in the repository) together
with the pieces of the package that the claims need but whose source
files are not part of the snapshot (`task.py`, `index.py`,
`_http_requests.py`, `errors.py`); those pieces are modelled faithfully
from the specification's words and are marked as such in their doc
comments.

Conventions of the embedding:
* A Python function that can either return a value or raise an API error
  is embedded as a function into a sum-like inductive whose constructors
  separate the "returned" from the "raised" outcome.
* The network is embedded as an explicit argument: the transport result
  (or, for the polling loop, the stream of task snapshots indexed by the
  poll number) is passed in, so every operation is a pure function of
  what the server answered.
* Machine integers do not overflow in any of the modelled code paths, so
  Nat is used throughout.
-/

/-- Modelled from the spec: the structured API error of `errors.py`
(`MeiliSearchApiError`), which is not under src/.  Per the spec the wire
shape is `{message, code, type, link}`; the HTTP status code of the
response that produced the error is carried alongside so that claims
about "a 404 response carrying a different code" can be stated. -/
structure MeiliSearchApiError where
  message : String
  code : String
  errorType : String
  link : String
  statusCode : Nat
deriving DecidableEq

/-- The index metadata record as it appears in the server's JSON
(`uid`, `primaryKey`, `createdAt`, `updatedAt`); timestamps are kept as
their raw wire strings here. -/
structure IndexRecord where
  uid : String
  primaryKey : Option String
  createdAt : Option String
  updatedAt : Option String
deriving DecidableEq

/-- The typed `IndexInfo` model returned by `get_raw_index` /
`get_raw_indexes` (`models.IndexInfo`). -/
structure IndexInfo where
  uid : String
  primaryKey : Option String
  createdAt : Option String
  updatedAt : Option String
deriving DecidableEq

/-- The local `Index` handle built by `Client.get_indexes`: uid plus the
metadata fields copied from the response record (the shared transport
reference carried by the Python object is not part of the data model). -/
structure IndexHandle where
  uid : String
  primaryKey : Option String
  createdAt : Option String
  updatedAt : Option String
deriving DecidableEq

/-- Conversion performed inside `Client.get_indexes` for each record of
the response array (`Index(http_client=..., uid=x["uid"], ...)`). -/
def indexOfRecord (x : IndexRecord) : IndexHandle :=
  ⟨x.uid, x.primaryKey, x.createdAt, x.updatedAt⟩

/-- Conversion performed inside `Client.get_raw_indexes` for each record
of the response array (`IndexInfo(**x)`). -/
def indexInfoOfRecord (x : IndexRecord) : IndexInfo :=
  ⟨x.uid, x.primaryKey, x.createdAt, x.updatedAt⟩

/-- Outcome of a transport call that either succeeds with a value or
raises a `MeiliSearchApiError`. -/
inductive ApiResult (α : Type) where
  | ok (a : α)
  | apiError (e : MeiliSearchApiError)
deriving DecidableEq

/-- Outcome of `Client.delete_index_if_exists`: a returned boolean or a
re-raised API error. -/
inductive DeleteResult where
  | ret (b : Bool)
  | raised (e : MeiliSearchApiError)
deriving DecidableEq

/-- Embedding of `Client.delete_index_if_exists` (client.py, lines
119-126).  The DELETE transport call's outcome is the argument: on
success the method returns True; on a `MeiliSearchApiError` it re-raises
unless `error.code != "index_not_found"` is false, in which case it
returns False. -/
def delete_index_if_exists (transport : ApiResult Unit) : DeleteResult :=
  match transport with
  | .ok _ => .ret true
  | .apiError error =>
      if error.code ≠ "index_not_found" then .raised error
      else .ret false

/-- Python substring containment (`pat in s`) on lists of characters:
true iff `pat` occurs contiguously inside `s` (the empty pattern is
contained in every string, as in Python). -/
def containsSub (s pat : List Char) : Bool :=
  match s with
  | [] => pat.isEmpty
  | _ :: t => pat.isPrefixOf s || containsSub t pat

/-- Python's `pat in s` on strings. -/
def strContains (s pat : String) : Bool := containsSub s.data pat.data

/-- Outcome of `Client.get_or_create_index`.  The constructor records
whether the create call was issued: `got` means the GET succeeded and
the existing metadata is returned with no create request; `created`
means the create request was issued and its result returned. -/
inductive GetOrCreateResult where
  | got (i : IndexInfo)
  | created (i : IndexInfo)
  | raised (e : MeiliSearchApiError)
deriving DecidableEq

/-- Embedding of `Client.get_or_create_index` (client.py, lines
283-289).  The outcome of the initial GET is the argument `getR`; the
create call is the function argument `create`, applied to the requested
uid and primary key exactly when the code reaches `create_index`.  The
branch is the source's: `if "index_not_found" not in err.code: raise
err`, i.e. substring containment on the error code. -/
def get_or_create_index (getR : ApiResult IndexInfo)
    (create : String → Option String → IndexInfo)
    (uid : String) (primary_key : Option String) : GetOrCreateResult :=
  match getR with
  | .ok i => .got i
  | .apiError err =>
      if strContains err.code "index_not_found" = false then .raised err
      else .created (create uid primary_key)

/-- Embedding of `Client.get_indexes` (client.py, lines 145-159).  The
decoded JSON body of the GET is the argument; `if not response.json():
return None` maps the empty array to None, otherwise one `Index` handle
is built per record. -/
def get_indexes (respJson : List IndexRecord) : Option (List IndexHandle) :=
  if respJson.isEmpty then none
  else some (respJson.map indexOfRecord)

/-- Embedding of `Client.get_raw_indexes` (client.py, lines 362-367):
same shape as `get_indexes` but producing `IndexInfo` models. -/
def get_raw_indexes (respJson : List IndexRecord) : Option (List IndexInfo) :=
  if respJson.isEmpty then none
  else some (respJson.map indexInfoOfRecord)

/-- A raw HTTP response: status code, decoded JSON body (already at the
type the caller will read it at), and — for stating the error-mapper
contract — the parse of the body as the structured error shape when it
parses as one. -/
structure RawResponse (α : Type) where
  statusCode : Nat
  json : α
  errorBody : Option MeiliSearchApiError
deriving DecidableEq

/-- The generic API error the mapper produces when a non-2xx body does
not parse as the structured error shape. -/
def defaultApiError (status : Nat) : MeiliSearchApiError :=
  ⟨"unparseable error body", "unknown", "unknown", "", status⟩

/-- Modelled from the spec: the response/error mapper of
`_http_requests.py`, which is not under src/.  Spec §4.2: "given a raw
response, returns it unchanged if status is 2xx; otherwise attempts to
parse a JSON error body into an ApiError and raises it. If the body is
not parseable as the expected error shape, raises a generic API error
carrying the raw status code". -/
def validate_response {α : Type} (r : RawResponse α) :
    Except MeiliSearchApiError (RawResponse α) :=
  if 200 ≤ r.statusCode ∧ r.statusCode < 300 then Except.ok r
  else
    match r.errorBody with
    | some e => Except.error e
    | none => Except.error (defaultApiError r.statusCode)

/-- Embedding of `Client.get_raw_index` (client.py, lines 335-340).
Unlike every other operation it calls the transport directly
(`self._http_client.get`) and inspects the status code itself:
`if response.status_code == 404: return None`, otherwise the body is
parsed as `IndexInfo`. -/
def get_raw_index (r : RawResponse IndexInfo) : Option IndexInfo :=
  if r.statusCode = 404 then none else some r.json

/-- Embedding of `Client._set_headers` (client.py, lines 411-420).
`api_key` is `str | None`; the Python truthiness test `if api_key:` is
false for both None and the empty string. -/
def _set_headers (api_key : Option String) : List (String × String) :=
  match api_key with
  | some k =>
      if k = "" then [("Content-Type", "application/json")]
      else [("X-Meili-Api-Key", k), ("Content-Type", "application/json")]
  | none => [("Content-Type", "application/json")]

/-- A canonical timestamp value: calendar date plus time of day at
microsecond precision. -/
structure DateTime where
  year : Nat
  month : Nat
  day : Nat
  hour : Nat
  minute : Nat
  second : Nat
  microsecond : Nat
deriving DecidableEq

/-- Numeric value of a decimal digit character. -/
def digitVal (c : Char) : Nat := c.toNat - Char.toNat '0'

/-- Decimal number denoted by a list of digit characters. -/
def digitsToNat (cs : List Char) : Nat :=
  cs.foldl (fun acc c => acc * 10 + digitVal c) 0

/-- All characters are decimal digits. -/
def allDigits (cs : List Char) : Bool := cs.all (fun c => c.isDigit)

/-- Microseconds denoted by a fractional-second digit string: the first
six digits, right-padded with zeros when fewer are given (truncation to
microsecond precision). -/
def microOfFrac (frac : List Char) : Nat :=
  digitsToNat (frac.take 6 ++ List.replicate (6 - (frac.take 6).length) '0')

/-- Modelled from the spec: the ISO-8601 parser used by
`Index._iso_to_date_time` in `index.py`, which is not under src/.  Spec
§3: timestamps are "parsed from ISO-8601-with-nanoseconds strings into a
canonical timestamp type, truncated to microsecond precision"; the wire
shape is `YYYY-MM-DDTHH:MM:SS.<fraction>Z`. -/
def parseIsoDateTime (s : String) : Option DateTime :=
  match s.data with
  | y1 :: y2 :: y3 :: y4 :: '-' :: mo1 :: mo2 :: '-' :: d1 :: d2 :: 'T' ::
    h1 :: h2 :: ':' :: mi1 :: mi2 :: ':' :: se1 :: se2 :: '.' :: rest =>
      if rest.getLast? = some 'Z' then
        let frac := rest.dropLast
        if allDigits [y1, y2, y3, y4, mo1, mo2, d1, d2, h1, h2, mi1, mi2, se1, se2]
            && allDigits frac && !frac.isEmpty then
          some ⟨digitsToNat [y1, y2, y3, y4], digitsToNat [mo1, mo2],
                digitsToNat [d1, d2], digitsToNat [h1, h2],
                digitsToNat [mi1, mi2], digitsToNat [se1, se2],
                microOfFrac frac⟩
        else none
      else none
  | _ => none

/-- Modelled from the spec: `Index._iso_to_date_time` of `index.py`,
which is not under src/.  Per the spec and the repository's test
`test_iso_to_date_time`, the input is `datetime | str | None`; a falsy
input (None, empty string) yields None, an already-canonical timestamp
is returned unchanged, and a wire string is parsed with the fractional
seconds truncated to microsecond precision. -/
def _iso_to_date_time : Option (String ⊕ DateTime) → Option DateTime
  | none => none
  | some (Sum.inr dt) => some dt
  | some (Sum.inl s) => if s = "" then none else parseIsoDateTime s

/-- The task status enumeration of the spec's data model. -/
inductive TaskStatus where
  | enqueued
  | processing
  | succeeded
  | failed
  | cancelled
deriving DecidableEq

/-- Spec §3 / glossary: terminal statuses are succeeded, failed and
cancelled. -/
def TaskStatus.isTerminal : TaskStatus → Bool
  | .succeeded => true
  | .failed => true
  | .cancelled => true
  | _ => false

/-- The `Task` snapshot fetched by one poll (spec §3): uid, nullable index
uid, status, operation kind, nullable structured error. -/
structure MeiliTask where
  uid : Nat
  indexUid : Option String
  status : TaskStatus
  taskType : String
  error : Option MeiliSearchApiError
deriving DecidableEq

/-- Outcome of one run of the task waiter: a terminal Task returned,
the typed timeout failure carrying the handle uid, or divergence (only
reachable when both the initial interval and the step are zero, in which
case the modelled loop never advances its clock). -/
inductive WaitOutcome where
  | done (t : MeiliTask)
  | timedOut (uid : Nat)
  | diverged
deriving DecidableEq

/-- Observable trace of one run of the task waiter: the sleep durations
performed in order, the number of task fetches issued, and the outcome. -/
structure WaitRun where
  sleeps : List Nat
  polls : Nat
  outcome : WaitOutcome
deriving DecidableEq

/-- Modelled from the spec: the polling loop of `wait_for_task` in
`task.py`, which is not under src/.  Spec §4.3: record a start
timestamp; loop: re-check elapsed time against the timeout before the
next fetch; issue a GET for the task's state; if the status is terminal
return the fetched Task immediately with no further sleep; otherwise
sleep for the current interval and increase the interval by a fixed
additive step; if elapsed time reaches the timeout before a terminal
state is observed, raise a typed timeout failure carrying the handle
uid.  Time is modelled as the sum of sleeps performed (fetches are
instantaneous), the evolving server state as the function `fetch` from
poll number to snapshot, and the loop is driven by fuel, which the
top-level entry point (`waitForTask`) sets high enough to be irrelevant
whenever the interval or the step is positive. -/
def waitLoop (fetch : Nat → MeiliTask) (uid timeout step : Nat) :
    Nat → Nat → Nat → Nat → WaitRun
  | fuel, k, cur, elapsed =>
    if elapsed < timeout then
      match fuel with
      | 0 => ⟨[], 0, .diverged⟩
      | f + 1 =>
          if (fetch k).status.isTerminal then ⟨[], 1, .done (fetch k)⟩
          else
            let rest := waitLoop fetch uid timeout step f (k + 1) (cur + step) (elapsed + cur)
            ⟨cur :: rest.sleeps, rest.polls + 1, rest.outcome⟩
    else ⟨[], 0, .timedOut uid⟩

/-- Modelled from the spec: `wait_for_task(handle_uid, timeout_ms,
interval_ms)` of `task.py` (not under src/), with the additive step of
the growing interval as an explicit parameter. -/
def waitForTask (fetch : Nat → MeiliTask) (uid timeout interval step : Nat) : WaitRun :=
  waitLoop fetch uid timeout step (timeout + 2) 0 interval 0

/-- The sequence of sleep durations the waiter uses starting from
current interval `cur` with additive step `step`, for `n` sleeps:
`[cur, cur + step, cur + 2*step, ...]`. -/
def sleepSeq (cur step : Nat) : Nat → List Nat
  | 0 => []
  | n + 1 => cur :: sleepSeq (cur + step) step n

theorem sleepSeq_length (step : Nat) :
    ∀ n cur, (sleepSeq cur step n).length = n := by
  intro n
  induction n with
  | zero => intro cur; rfl
  | succ m ih => intro cur; simpa [sleepSeq] using ih (cur + step)

theorem sleepSeq_get (step : Nat) :
    ∀ n cur i (h : i < (sleepSeq cur step n).length),
      (sleepSeq cur step n).get ⟨i, h⟩ = cur + i * step := by
  intro n
  induction n with
  | zero => intro cur i h; simp [sleepSeq_length] at h
  | succ m ih =>
      intro cur i h
      match i with
      | 0 => simp [sleepSeq]
      | j + 1 =>
          have hj : j < (sleepSeq (cur + step) step m).length := by
            simp only [sleepSeq_length] at h ⊢; omega
          have := ih (cur + step) j hj
          simp only [sleepSeq, List.get_cons_succ]
          rw [this]
          ring

theorem sleepSeq_sum_lower (step : Nat) :
    ∀ n cur, 0 < cur → n ≤ (sleepSeq cur step n).sum := by
  intro n
  induction n with
  | zero => intro cur _; simp [sleepSeq]
  | succ m ih =>
      intro cur hc
      have := ih (cur + step) (by omega)
      simp only [sleepSeq, List.sum_cons]
      omega

theorem waitLoop_stop (fetch : Nat → MeiliTask) (uid timeout step fuel k cur elapsed : Nat)
    (h : ¬ elapsed < timeout) :
    waitLoop fetch uid timeout step fuel k cur elapsed = ⟨[], 0, .timedOut uid⟩ := by
  unfold waitLoop
  rw [if_neg h]

theorem waitLoop_fuel0 (fetch : Nat → MeiliTask) (uid timeout step k cur elapsed : Nat)
    (h : elapsed < timeout) :
    waitLoop fetch uid timeout step 0 k cur elapsed = ⟨[], 0, .diverged⟩ := by
  unfold waitLoop
  rw [if_pos h]

theorem waitLoop_term (fetch : Nat → MeiliTask) (uid timeout step f k cur elapsed : Nat)
    (h : elapsed < timeout) (ht : (fetch k).status.isTerminal = true) :
    waitLoop fetch uid timeout step (f + 1) k cur elapsed = ⟨[], 1, .done (fetch k)⟩ := by
  conv_lhs => rw [waitLoop]
  rw [if_pos h]
  simp [ht]

theorem waitLoop_cont (fetch : Nat → MeiliTask) (uid timeout step f k cur elapsed : Nat)
    (h : elapsed < timeout) (ht : (fetch k).status.isTerminal = false) :
    waitLoop fetch uid timeout step (f + 1) k cur elapsed =
      ⟨cur :: (waitLoop fetch uid timeout step f (k + 1) (cur + step) (elapsed + cur)).sleeps,
       (waitLoop fetch uid timeout step f (k + 1) (cur + step) (elapsed + cur)).polls + 1,
       (waitLoop fetch uid timeout step f (k + 1) (cur + step) (elapsed + cur)).outcome⟩ := by
  conv_lhs => rw [waitLoop]
  rw [if_pos h]
  simp [ht]

theorem waitLoop_success (fetch : Nat → MeiliTask) (uid timeout step : Nat) :
    ∀ n fuel k cur elapsed,
      (∀ j, j < n → (fetch (k + j)).status.isTerminal = false) →
      (fetch (k + n)).status.isTerminal = true →
      elapsed + (sleepSeq cur step n).sum < timeout →
      n < fuel →
      waitLoop fetch uid timeout step fuel k cur elapsed =
        ⟨sleepSeq cur step n, n + 1, .done (fetch (k + n))⟩ := by
  intro n
  induction n with
  | zero =>
      intro fuel k cur elapsed _ ht hsum hfuel
      obtain ⟨f, rfl⟩ : ∃ f, fuel = f + 1 := ⟨fuel - 1, by omega⟩
      have h : elapsed < timeout := by
        simp only [sleepSeq, List.sum_nil, Nat.add_zero] at hsum
        exact hsum
      rw [waitLoop_term fetch uid timeout step f k cur elapsed h (by simpa using ht)]
      simp [sleepSeq]
  | succ m ih =>
      intro fuel k cur elapsed hnt ht hsum hfuel
      obtain ⟨f, rfl⟩ : ∃ f, fuel = f + 1 := ⟨fuel - 1, by omega⟩
      have hsum' : elapsed + cur + (sleepSeq (cur + step) step m).sum < timeout := by
        simp only [sleepSeq, List.sum_cons] at hsum
        omega
      have h : elapsed < timeout := by omega
      have h0 : (fetch k).status.isTerminal = false := by
        simpa using hnt 0 (Nat.succ_pos m)
      rw [waitLoop_cont fetch uid timeout step f k cur elapsed h h0]
      have harg : ∀ j, j < m → (fetch (k + 1 + j)).status.isTerminal = false := by
        intro j hj
        have := hnt (j + 1) (by omega)
        have he : k + (j + 1) = k + 1 + j := by omega
        rwa [he] at this
      have ht' : (fetch (k + 1 + m)).status.isTerminal = true := by
        have he : k + (m + 1) = k + 1 + m := by omega
        rwa [he] at ht
      rw [ih f (k + 1) (cur + step) (elapsed + cur) harg ht' hsum' (by omega)]
      have he : k + 1 + m = k + (m + 1) := by omega
      simp [sleepSeq, he]

theorem waitLoop_timeout (fetch : Nat → MeiliTask) (uid timeout step : Nat)
    (hall : ∀ j, (fetch j).status.isTerminal = false) :
    ∀ fuel k cur elapsed, 0 < cur → timeout < elapsed + fuel →
      ((waitLoop fetch uid timeout step fuel k cur elapsed).outcome = .timedOut uid) ∧
      ((waitLoop fetch uid timeout step fuel k cur elapsed).polls =
        (waitLoop fetch uid timeout step fuel k cur elapsed).sleeps.length) ∧
      (timeout ≤ elapsed + (waitLoop fetch uid timeout step fuel k cur elapsed).sleeps.sum) ∧
      (elapsed + (waitLoop fetch uid timeout step fuel k cur elapsed).sleeps.dropLast.sum < timeout ∨
        (waitLoop fetch uid timeout step fuel k cur elapsed).sleeps = []) := by
  intro fuel
  induction fuel with
  | zero =>
      intro k cur elapsed hc hf
      have h : ¬ elapsed < timeout := by omega
      rw [waitLoop_stop fetch uid timeout step 0 k cur elapsed h]
      refine ⟨rfl, rfl, by simpa using Nat.le_of_lt_succ (by omega), Or.inr rfl⟩
  | succ f ih =>
      intro k cur elapsed hc hf
      by_cases h : elapsed < timeout
      · rw [waitLoop_cont fetch uid timeout step f k cur elapsed h (hall k)]
        obtain ⟨ho, hp, hs, hd⟩ := ih (k + 1) (cur + step) (elapsed + cur) (by omega) (by omega)
        refine ⟨ho, by simp [hp], ?_, ?_⟩
        · simp only [List.sum_cons]
          omega
        · left
          cases hrest : (waitLoop fetch uid timeout step f (k + 1) (cur + step) (elapsed + cur)).sleeps with
          | nil => simpa using h
          | cons a t =>
              rw [hrest] at hd
              rcases hd with hd | hd
              · have he : (cur :: a :: t).dropLast = cur :: (a :: t).dropLast := rfl
                rw [he]
                simp only [List.sum_cons]
                omega
              · exact absurd hd (by simp)
      · rw [waitLoop_stop fetch uid timeout step (f + 1) k cur elapsed h]
        refine ⟨rfl, rfl, by simpa using Nat.le_of_not_lt h, Or.inr rfl⟩

theorem waitLoop_sleeps_shape (fetch : Nat → MeiliTask) (uid timeout step : Nat) :
    ∀ fuel k cur elapsed,
      ∃ m, (waitLoop fetch uid timeout step fuel k cur elapsed).sleeps = sleepSeq cur step m := by
  intro fuel
  induction fuel with
  | zero =>
      intro k cur elapsed
      refine ⟨0, ?_⟩
      by_cases h : elapsed < timeout
      · rw [waitLoop_fuel0 fetch uid timeout step k cur elapsed h]
        rfl
      · rw [waitLoop_stop fetch uid timeout step 0 k cur elapsed h]
        rfl
  | succ f ih =>
      intro k cur elapsed
      by_cases h : elapsed < timeout
      · cases ht : (fetch k).status.isTerminal with
        | true =>
            refine ⟨0, ?_⟩
            rw [waitLoop_term fetch uid timeout step f k cur elapsed h ht]
            rfl
        | false =>
            obtain ⟨m, hm⟩ := ih (k + 1) (cur + step) (elapsed + cur)
            refine ⟨m + 1, ?_⟩
            rw [waitLoop_cont fetch uid timeout step f k cur elapsed h ht]
            simp [sleepSeq, hm]
      · refine ⟨0, ?_⟩
        rw [waitLoop_stop fetch uid timeout step (f + 1) k cur elapsed h]
        rfl

theorem waitLoop_done_polls (fetch : Nat → MeiliTask) (uid timeout step : Nat) :
    ∀ fuel k cur elapsed t,
      (waitLoop fetch uid timeout step fuel k cur elapsed).outcome = .done t →
      (waitLoop fetch uid timeout step fuel k cur elapsed).polls =
        (waitLoop fetch uid timeout step fuel k cur elapsed).sleeps.length + 1 := by
  intro fuel
  induction fuel with
  | zero =>
      intro k cur elapsed t hdone
      by_cases h : elapsed < timeout
      · rw [waitLoop_fuel0 fetch uid timeout step k cur elapsed h] at hdone
        exact absurd hdone (by simp)
      · rw [waitLoop_stop fetch uid timeout step 0 k cur elapsed h] at hdone
        exact absurd hdone (by simp)
  | succ f ih =>
      intro k cur elapsed t hdone
      by_cases h : elapsed < timeout
      · cases ht : (fetch k).status.isTerminal with
        | true =>
            rw [waitLoop_term fetch uid timeout step f k cur elapsed h ht]
            rfl
        | false =>
            rw [waitLoop_cont fetch uid timeout step f k cur elapsed h ht] at hdone ⊢
            simp only [List.length_cons]
            have := ih (k + 1) (cur + step) (elapsed + cur) t (by simpa using hdone)
            simp [this]
      · rw [waitLoop_stop fetch uid timeout step (f + 1) k cur elapsed h] at hdone
        exact absurd hdone (by simp)

theorem sleepSeq_chain (step : Nat) :
    ∀ n cur, List.Chain' (· ≤ ·) (sleepSeq cur step n) := by
  intro n
  induction n with
  | zero => intro cur; exact List.chain'_nil
  | succ m ih =>
      intro cur
      cases m with
      | zero => exact List.chain'_singleton cur
      | succ p =>
          show List.Chain' (· ≤ ·) (cur :: (cur + step) :: sleepSeq (cur + step + step) step p)
          rw [List.chain'_cons]
          exact ⟨Nat.le_add_right cur step, ih (cur + step)⟩

theorem sleepSeq_getq (step : Nat) :
    ∀ n cur i, i < n → (sleepSeq cur step n).get? i = some (cur + i * step) := by
  intro n
  induction n with
  | zero => intro cur i hi; omega
  | succ m ih =>
      intro cur i hi
      match i with
      | 0 => simp [sleepSeq]
      | j + 1 =>
          have := ih (cur + step) j (by omega)
          simp only [sleepSeq, List.get?_cons_succ]
          rw [this]
          congr 1
          ring

/-- C4: `delete_index_if_exists` returns true when the DELETE succeeds,
returns false when the raised API error's structured `code` field equals
"index_not_found", and re-raises the error unchanged for every other
code — the branch is on the `code` field only, so the HTTP status of the
error (e.g. a 404 carrying a different code) plays no role. -/
theorem delete_index_if_exists_branches_on_code (e : MeiliSearchApiError) :
    delete_index_if_exists (ApiResult.ok ()) = DeleteResult.ret true ∧
    (e.code = "index_not_found" →
      delete_index_if_exists (ApiResult.apiError e) = DeleteResult.ret false) ∧
    (e.code ≠ "index_not_found" →
      delete_index_if_exists (ApiResult.apiError e) = DeleteResult.raised e) := by
  refine ⟨rfl, ?_, ?_⟩
  · intro hc
    simp [delete_index_if_exists, hc]
  · intro hc
    simp [delete_index_if_exists, hc]

/-- Witness for C4: a 404 response whose code is "invalid_api_key"
propagates, while code "index_not_found" (also with HTTP status 404)
is swallowed into `False`. -/
theorem delete_index_if_exists_branches_on_code_witness :
    delete_index_if_exists (ApiResult.apiError ⟨"m", "invalid_api_key", "auth", "", 404⟩) =
      DeleteResult.raised ⟨"m", "invalid_api_key", "auth", "", 404⟩ ∧
    delete_index_if_exists (ApiResult.apiError ⟨"m", "index_not_found", "invalid_request", "", 404⟩) =
      DeleteResult.ret false :=
  ⟨(delete_index_if_exists_branches_on_code ⟨"m", "invalid_api_key", "auth", "", 404⟩).2.2
      (by decide),
   (delete_index_if_exists_branches_on_code
      ⟨"m", "index_not_found", "invalid_request", "", 404⟩).2.1 rfl⟩

/-- C5 counterexample: the claim says any API error whose code is not
the not-found code propagates unchanged out of `get_or_create_index`;
but the source matches by substring (`"index_not_found" not in
err.code`), so the error with code "tenant_index_not_found" — which is
not the not-found code — is not re-raised: the index is created
instead. -/
theorem get_or_create_index_substring_cex :
    ("tenant_index_not_found" : String) ≠ "index_not_found" ∧
    get_or_create_index
        (ApiResult.apiError ⟨"m", "tenant_index_not_found", "invalid_request", "", 404⟩)
        (fun u p => ⟨u, p, none, none⟩) "movies" none ≠
      GetOrCreateResult.raised ⟨"m", "tenant_index_not_found", "invalid_request", "", 404⟩ ∧
    get_or_create_index
        (ApiResult.apiError ⟨"m", "tenant_index_not_found", "invalid_request", "", 404⟩)
        (fun u p => ⟨u, p, none, none⟩) "movies" none =
      GetOrCreateResult.created ⟨"movies", none, none, none⟩ := by
  refine ⟨by decide, by decide, by decide⟩

/-- C5 as amended: `get_or_create_index` returns the existing index's
metadata unchanged with no create call when the GET succeeds; when the
GET raises an API error whose `code` contains "index_not_found" as a
substring it creates the index with the requested uid and primary key
and returns the created metadata; an error whose code does not contain
that substring propagates unchanged. -/
theorem get_or_create_index_amended (i : IndexInfo) (e : MeiliSearchApiError)
    (create : String → Option String → IndexInfo) (uid : String) (pk : Option String) :
    get_or_create_index (ApiResult.ok i) create uid pk = GetOrCreateResult.got i ∧
    (strContains e.code "index_not_found" = true →
      get_or_create_index (ApiResult.apiError e) create uid pk =
        GetOrCreateResult.created (create uid pk)) ∧
    (strContains e.code "index_not_found" = false →
      get_or_create_index (ApiResult.apiError e) create uid pk =
        GetOrCreateResult.raised e) := by
  refine ⟨rfl, ?_, ?_⟩
  · intro hc
    simp [get_or_create_index, hc]
  · intro hc
    simp [get_or_create_index, hc]

/-- Witness for the amended C5: the exact not-found code triggers a
create with the requested uid and primary key; an unrelated code
propagates unchanged. -/
theorem get_or_create_index_amended_witness :
    get_or_create_index
        (ApiResult.apiError ⟨"m", "index_not_found", "invalid_request", "", 404⟩)
        (fun u p => ⟨u, p, none, none⟩) "books" (some "isbn") =
      GetOrCreateResult.created ⟨"books", some "isbn", none, none⟩ ∧
    get_or_create_index (ApiResult.apiError ⟨"m", "invalid_api_key", "auth", "", 403⟩)
        (fun u p => ⟨u, p, none, none⟩) "books" none =
      GetOrCreateResult.raised ⟨"m", "invalid_api_key", "auth", "", 403⟩ :=
  ⟨(get_or_create_index_amended ⟨"x", none, none, none⟩
      ⟨"m", "index_not_found", "invalid_request", "", 404⟩
      (fun u p => ⟨u, p, none, none⟩) "books" (some "isbn")).2.1 (by decide),
   (get_or_create_index_amended ⟨"x", none, none, none⟩
      ⟨"m", "invalid_api_key", "auth", "", 403⟩
      (fun u p => ⟨u, p, none, none⟩) "books" none).2.2 (by decide)⟩

/-- C9: the two not-found checks are asymmetric.  For every API error
whose code strictly contains "index_not_found" as a proper substring,
`get_or_create_index` proceeds to create the index while
`delete_index_if_exists` re-raises the error. -/
theorem not_found_checks_asymmetric (e : MeiliSearchApiError)
    (create : String → Option String → IndexInfo) (uid : String) (pk : Option String)
    (hsub : strContains e.code "index_not_found" = true)
    (hne : e.code ≠ "index_not_found") :
    get_or_create_index (ApiResult.apiError e) create uid pk =
      GetOrCreateResult.created (create uid pk) ∧
    delete_index_if_exists (ApiResult.apiError e) = DeleteResult.raised e := by
  constructor
  · simp [get_or_create_index, hsub]
  · simp [delete_index_if_exists, hne]

/-- Witness for C9 at the code "old_index_not_found", a proper
superstring of the sentinel. -/
theorem not_found_checks_asymmetric_witness :
    get_or_create_index
        (ApiResult.apiError ⟨"m", "old_index_not_found", "invalid_request", "", 404⟩)
        (fun u p => ⟨u, p, none, none⟩) "films" none =
      GetOrCreateResult.created ⟨"films", none, none, none⟩ ∧
    delete_index_if_exists
        (ApiResult.apiError ⟨"m", "old_index_not_found", "invalid_request", "", 404⟩) =
      DeleteResult.raised ⟨"m", "old_index_not_found", "invalid_request", "", 404⟩ :=
  not_found_checks_asymmetric ⟨"m", "old_index_not_found", "invalid_request", "", 404⟩
    (fun u p => ⟨u, p, none, none⟩) "films" none (by decide) (by decide)

/-- C10: the default headers always include Content-Type:
application/json, and include X-Meili-Api-Key exactly when the api_key
argument is truthy; in particular an empty-string api_key produces the
same headers as None. -/
theorem set_headers_spec (api_key : Option String) :
    ("Content-Type", "application/json") ∈ _set_headers api_key ∧
    ((∃ v, ("X-Meili-Api-Key", v) ∈ _set_headers api_key) ↔
      ∃ k, api_key = some k ∧ k ≠ "") ∧
    _set_headers (some "") = _set_headers none := by
  refine ⟨?_, ?_, rfl⟩
  · cases api_key with
    | none => simp [_set_headers]
    | some k =>
        by_cases hk : k = "" <;> simp [_set_headers, hk]
  · cases api_key with
    | none => simp [_set_headers]
    | some k =>
        by_cases hk : k = ""
        · subst hk
          simp [_set_headers]
        · simp [_set_headers, hk]

/-- C7: `get_indexes` and `get_raw_indexes` surface an empty response
collection as the explicit absent value None, and a non-empty response
as one typed entry per record of the response array. -/
theorem get_indexes_empty_absent (respJson : List IndexRecord) :
    (get_indexes respJson = none ↔ respJson = []) ∧
    (get_raw_indexes respJson = none ↔ respJson = []) ∧
    (respJson ≠ [] →
      get_indexes respJson = some (respJson.map indexOfRecord) ∧
      get_raw_indexes respJson = some (respJson.map indexInfoOfRecord)) := by
  cases respJson with
  | nil => refine ⟨by simp [get_indexes], by simp [get_raw_indexes], by simp⟩
  | cons a t =>
      refine ⟨by simp [get_indexes], by simp [get_raw_indexes], fun _ => ⟨?_, ?_⟩⟩
      · simp [get_indexes]
      · simp [get_raw_indexes]

/-- Witness for C7 at a one-element response. -/
theorem get_indexes_empty_absent_witness :
    get_indexes [⟨"movies", some "id", none, none⟩] =
      some [⟨"movies", some "id", none, none⟩] ∧
    get_raw_indexes [⟨"movies", some "id", none, none⟩] =
      some [⟨"movies", some "id", none, none⟩] :=
  (get_indexes_empty_absent [⟨"movies", some "id", none, none⟩]).2.2 (by decide)

/-- C6 counterexample: the claim says every resource-client operation
routes its raw response through the mapper, raising on every non-2xx
status, and that no operation inspects status codes itself; but
`get_raw_index` calls the transport directly and branches on
`status_code == 404`: on the 404 response below it returns None (a
normal value) where the mapper raises the parsed API error. -/
theorem get_raw_index_inspects_status_cex :
    get_raw_index ⟨404, ⟨"movies", none, none, none⟩,
        some ⟨"m", "index_not_found", "invalid_request", "", 404⟩⟩ = none ∧
    validate_response (⟨404, ⟨"movies", none, none, none⟩,
        some ⟨"m", "index_not_found", "invalid_request", "", 404⟩⟩ : RawResponse IndexInfo) =
      Except.error ⟨"m", "index_not_found", "invalid_request", "", 404⟩ :=
  ⟨rfl, rfl⟩

/-- C6 as amended: the mapper returns 2xx responses unchanged and raises
the parsed structured error on non-2xx; every operation that goes
through the shared request helper inherits this behavior, but
`get_raw_index` is an exception: it calls the transport directly and
inspects the status code itself, returning None exactly on HTTP 404 and
the parsed body otherwise. -/
theorem response_mapping_amended {α : Type} (r : RawResponse α) (e : MeiliSearchApiError)
    (ri : RawResponse IndexInfo) :
    (200 ≤ r.statusCode ∧ r.statusCode < 300 → validate_response r = Except.ok r) ∧
    (¬(200 ≤ r.statusCode ∧ r.statusCode < 300) → r.errorBody = some e →
      validate_response r = Except.error e) ∧
    (ri.statusCode = 404 → get_raw_index ri = none) ∧
    (ri.statusCode ≠ 404 → get_raw_index ri = some ri.json) := by
  refine ⟨?_, ?_, ?_, ?_⟩
  · intro h
    simp [validate_response, h]
  · intro h hb
    simp [validate_response, h, hb]
  · intro h
    simp [get_raw_index, h]
  · intro h
    simp [get_raw_index, h]

/-- Witness for the amended C6: a 200 passes through, a 500 raises the
parsed error, a 404 maps to None in `get_raw_index`, and a 200 maps to
the parsed body. -/
theorem response_mapping_amended_witness :
    validate_response (⟨200, (0 : Nat), none⟩ : RawResponse Nat) = Except.ok ⟨200, 0, none⟩ ∧
    validate_response (⟨500, (0 : Nat), some ⟨"m", "internal", "internal", "", 500⟩⟩ :
        RawResponse Nat) = Except.error ⟨"m", "internal", "internal", "", 500⟩ ∧
    get_raw_index ⟨404, ⟨"movies", none, none, none⟩, none⟩ = none ∧
    get_raw_index ⟨200, ⟨"movies", none, none, none⟩, none⟩ =
      some ⟨"movies", none, none, none⟩ :=
  ⟨(response_mapping_amended (⟨200, (0 : Nat), none⟩ : RawResponse Nat)
      ⟨"m", "internal", "internal", "", 500⟩
      (⟨404, ⟨"movies", none, none, none⟩, none⟩ : RawResponse IndexInfo)).1 (by decide),
   (response_mapping_amended (⟨500, (0 : Nat), some ⟨"m", "internal", "internal", "", 500⟩⟩ :
        RawResponse Nat) ⟨"m", "internal", "internal", "", 500⟩
      (⟨404, ⟨"movies", none, none, none⟩, none⟩ : RawResponse IndexInfo)).2.1
      (by decide) rfl,
   (response_mapping_amended (⟨200, (0 : Nat), none⟩ : RawResponse Nat)
      ⟨"m", "internal", "internal", "", 500⟩
      (⟨404, ⟨"movies", none, none, none⟩, none⟩ : RawResponse IndexInfo)).2.2.1 rfl,
   (response_mapping_amended (⟨200, (0 : Nat), none⟩ : RawResponse Nat)
      ⟨"m", "internal", "internal", "", 500⟩
      (⟨200, ⟨"movies", none, none, none⟩, none⟩ : RawResponse IndexInfo)).2.2.2
      (by decide)⟩

/-- C8: timestamp parsing maps the literal wire string
"2021-05-11T03:12:22.563960100Z" to 2021-05-11 03:12:22.563960
(nanoseconds truncated to microsecond precision), maps None to None
unchanged, and is the identity on an already-canonical timestamp. -/
theorem iso_to_date_time_spec :
    _iso_to_date_time (some (Sum.inl "2021-05-11T03:12:22.563960100Z")) =
      some ⟨2021, 5, 11, 3, 12, 22, 563960⟩ ∧
    _iso_to_date_time none = none ∧
    ∀ dt : DateTime, _iso_to_date_time (some (Sum.inr dt)) = some dt :=
  ⟨by decide, rfl, fun _ => rfl⟩

/-- C1: if the server reports a terminal status (succeeded, failed or
cancelled) for the polled task at poll `n`, before the timeout deadline
(the elapsed time at that poll, i.e. the sum of the sleeps before it,
is below the timeout), then the waiter returns the fetched Task —
outcome `done (fetch n)` — rather than raising; in particular the
returned snapshot carries the server's status and error fields
unchanged, so a "failed" Task is a normal return with its error
populated, and only the polling mechanism itself raises. -/
theorem wait_for_task_returns_terminal (fetch : Nat → MeiliTask)
    (uid timeout interval step n : Nat)
    (hbefore : ∀ j, j < n → (fetch j).status.isTerminal = false)
    (hterm : (fetch n).status.isTerminal = true)
    (hdeadline : (sleepSeq interval step n).sum < timeout)
    (hint : 0 < interval) :
    (waitForTask fetch uid timeout interval step).outcome = WaitOutcome.done (fetch n) := by
  have hfuel : n < timeout + 2 := by
    have h1 := sleepSeq_sum_lower step n interval hint
    omega
  have hmain := waitLoop_success fetch uid timeout step n (timeout + 2) 0 interval 0
    (fun j hj => by simpa using hbefore j hj)
    (by simpa using hterm)
    (by simpa using hdeadline)
    hfuel
  unfold waitForTask
  rw [hmain]
  simp

/-- Witness for C1: the server reports processing twice and then
failed; the waiter returns the failed snapshot, whose error field is
the server-reported error. -/
theorem wait_for_task_returns_terminal_witness :
    (waitForTask
        (fun k => if k < 2 then ⟨7, some "movies", TaskStatus.processing, "settingsUpdate", none⟩
          else ⟨7, some "movies", TaskStatus.failed, "settingsUpdate",
            some ⟨"bad document", "invalid_request", "invalid_request", "", 400⟩⟩)
        7 5000 50 10).outcome =
      WaitOutcome.done
        ((fun k => if k < 2 then ⟨7, some "movies", TaskStatus.processing, "settingsUpdate", none⟩
          else ⟨7, some "movies", TaskStatus.failed, "settingsUpdate",
            some ⟨"bad document", "invalid_request", "invalid_request", "", 400⟩⟩) 2) :=
  wait_for_task_returns_terminal
    (fun k => if k < 2 then ⟨7, some "movies", TaskStatus.processing, "settingsUpdate", none⟩
      else ⟨7, some "movies", TaskStatus.failed, "settingsUpdate",
        some ⟨"bad document", "invalid_request", "invalid_request", "", 400⟩⟩)
    7 5000 50 10 2 (by decide) (by decide) (by decide) (by decide)

/-- C2: if the task's status never becomes terminal, the waiter raises
the typed timeout failure carrying the handle uid exactly when elapsed
time reaches or exceeds the timeout — the total sleep time at the raise
is at least the timeout while the elapsed time before the final sleep
was still below it — and performs no further poll after raising: the
number of fetches equals the number of sleeps, so the final
deadline check issues no GET. -/
theorem wait_for_task_timeout_raises (fetch : Nat → MeiliTask)
    (uid timeout interval step : Nat)
    (hnever : ∀ j, (fetch j).status.isTerminal = false)
    (hint : 0 < interval) (htpos : 0 < timeout) :
    (waitForTask fetch uid timeout interval step).outcome = WaitOutcome.timedOut uid ∧
    (waitForTask fetch uid timeout interval step).polls =
      (waitForTask fetch uid timeout interval step).sleeps.length ∧
    timeout ≤ (waitForTask fetch uid timeout interval step).sleeps.sum ∧
    (waitForTask fetch uid timeout interval step).sleeps.dropLast.sum < timeout := by
  unfold waitForTask
  obtain ⟨ho, hp, hs, hd⟩ :=
    waitLoop_timeout fetch uid timeout step hnever (timeout + 2) 0 interval 0 hint (by omega)
  refine ⟨ho, hp, by simpa using hs, ?_⟩
  rcases hd with hd | hd
  · simpa using hd
  · rw [hd] at hs
    simp at hs
    omega

/-- Witness for C2: a task stuck in enqueued with timeout 200 ms,
interval 50 ms and step 10 ms times out carrying uid 9. -/
theorem wait_for_task_timeout_raises_witness :
    (waitForTask (fun _ => ⟨9, none, TaskStatus.enqueued, "dumpCreation", none⟩)
        9 200 50 10).outcome = WaitOutcome.timedOut 9 :=
  (wait_for_task_timeout_raises (fun _ => ⟨9, none, TaskStatus.enqueued, "dumpCreation", none⟩)
      9 200 50 10 (fun _ => rfl) (by decide) (by decide)).1

/-- C3: in every execution of the waiter the sequence of sleeps between
successive fetches is non-decreasing, each sleep after the first
exceeds its predecessor by exactly the fixed additive step (hence
strictly increases when the step is positive), and when a fetch
observes a terminal status no sleep follows it: the number of fetches
is one more than the number of sleeps. -/
theorem wait_for_task_interval_growth (fetch : Nat → MeiliTask)
    (uid timeout interval step : Nat) (hstep : 0 < step) :
    List.Chain' (· ≤ ·) (waitForTask fetch uid timeout interval step).sleeps ∧
    (∀ i a b, (waitForTask fetch uid timeout interval step).sleeps.get? i = some a →
      (waitForTask fetch uid timeout interval step).sleeps.get? (i + 1) = some b →
      a + step = b ∧ a < b) ∧
    (∀ t, (waitForTask fetch uid timeout interval step).outcome = WaitOutcome.done t →
      (waitForTask fetch uid timeout interval step).polls =
        (waitForTask fetch uid timeout interval step).sleeps.length + 1) := by
  unfold waitForTask
  obtain ⟨m, hm⟩ := waitLoop_sleeps_shape fetch uid timeout step (timeout + 2) 0 interval 0
  refine ⟨?_, ?_, ?_⟩
  · rw [hm]
    exact sleepSeq_chain step m interval
  · intro i a b ha hb
    rw [hm] at ha hb
    have hib : i + 1 < m := by
      have := List.get?_eq_some.mp hb
      obtain ⟨hl, _⟩ := this
      rwa [sleepSeq_length] at hl
    rw [sleepSeq_getq step m interval i (by omega)] at ha
    rw [sleepSeq_getq step m interval (i + 1) hib] at hb
    have hav : a = interval + i * step := by
      injection ha with ha'
      omega
    have hbv : b = interval + (i + 1) * step := by
      injection hb with hb'
      omega
    have hmul : (i + 1) * step = i * step + step := Nat.succ_mul i step
    omega
  · intro t hdone
    rw [waitLoop_done_polls fetch uid timeout step (timeout + 2) 0 interval 0 t hdone, hm]

/-- Witness for C3: on a never-terminal run with interval 50 and step
10 the executed sleep sequence is non-decreasing. -/
theorem wait_for_task_interval_growth_witness :
    List.Chain' (· ≤ ·)
      (waitForTask (fun _ => ⟨1, none, TaskStatus.processing, "indexCreation", none⟩)
        1 200 50 10).sleeps :=
  (wait_for_task_interval_growth (fun _ => ⟨1, none, TaskStatus.processing, "indexCreation", none⟩)
      1 200 50 10 (by decide)).1
